import Mathlib

/-
Verification of the core simulation loop of the defender2084 arcade shooter.

The embedding follows the first `Game` class of the main script (the game
source file) together with the `Lander` class.  Times, health, energy and
score arithmetic are JavaScript numbers used at rational values, embedded
as exact rationals; entity positions feed Euclidean distances
(BABYLON.Vector3.Distance), embedded over the reals with Real.sqrt.
Engine mesh-intersection tests (intersectsMesh) are external collaborator
calls and are abstracted as an arbitrary predicate parameter.
-/

namespace Defender2084

/-! ## Score and counters (updateScore / updateAstronautsSaved / updateLandersDestroyed) -/

/-- Scoreboard slice of the game state: `score`, `astronautsSaved`,
`landersDestroyed` fields of the `Game` object. -/
structure ScoreState where
  score : ℤ
  astronautsSaved : ℕ
  landersDestroyed : ℕ
deriving DecidableEq, Repr

/-- Source `updateScore(points)`: `this.score += points` (GUI text update is
presentation only). -/
def updateScore (points : ℤ) (g : ScoreState) : ScoreState :=
  { g with score := g.score + points }

/-- Source `updateAstronautsSaved()`: increments `astronautsSaved` and calls
`updateScore(100)` (GUI text and popup effect are presentation only). -/
def updateAstronautsSaved (g : ScoreState) : ScoreState :=
  updateScore 100 { g with astronautsSaved := g.astronautsSaved + 1 }

/-- Source `updateLandersDestroyed()`: increments `landersDestroyed` and calls
`updateScore(50)` (GUI text and popup effect are presentation only). -/
def updateLandersDestroyed (g : ScoreState) : ScoreState :=
  updateScore 50 { g with landersDestroyed := g.landersDestroyed + 1 }

/-! ## Player resource economy (health, energy, game-over flag) -/

/-- Constant `this.maxHealth = 100` from `initializeGameProperties`. -/
def maxHealth : ℚ := 100

/-- Constant `this.maxEnergy = 100` from `initializeGameProperties`. -/
def maxEnergy : ℚ := 100

/-- Constant `this.energyRechargeRate = 0.2` from `initializeGameProperties`. -/
def energyRechargeRate : ℚ := 0.2

/-- Constant `this.laserEnergyCost = 10` from `initializeGameProperties`. -/
def laserEnergyCost : ℚ := 10

/-- Player resource slice of the game state: `health`, `energy`, `isGameOver`. -/
structure PlayerState where
  health : ℚ
  energy : ℚ
  isGameOver : Bool
deriving DecidableEq, Repr

/-- Initial player state from `initializeGameProperties`:
`health = maxHealth`, `energy = maxEnergy`, `isGameOver = false`. -/
def initPlayer : PlayerState :=
  { health := maxHealth, energy := maxEnergy, isGameOver := false }

/-- Source `update()` energy-recharge step:
`if (this.energy < this.maxEnergy) this.energy = Math.min(this.maxEnergy, this.energy + this.energyRechargeRate)`. -/
def rechargeEnergy (s : PlayerState) : PlayerState :=
  if s.energy < maxEnergy then
    { s with energy := min maxEnergy (s.energy + energyRechargeRate) }
  else s

/-- Source `updateMovement()` vertical-thruster branch: holding `q` or (else)
`e` sets `this.energy = Math.max(0, this.energy - 0.5)`.  The vertical
velocity change is engine physics and does not touch health or energy. -/
def verticalThrustDrain (keyQ keyE : Bool) (s : PlayerState) : PlayerState :=
  if keyQ then { s with energy := max 0 (s.energy - 0.5) }
  else if keyE then { s with energy := max 0 (s.energy - 0.5) }
  else s

/-- Source `takeDamage(amount)`:
`this.health = Math.max(0, this.health - amount);`
`if (this.health <= 0 && !this.isGameOver) { this.isGameOver = true; this.showGameOver(); }`.
The returned Bool records whether the game-over transition
(`showGameOver`) fired in this call. -/
def takeDamage (amount : ℚ) (s : PlayerState) : PlayerState × Bool :=
  if max 0 (s.health - amount) ≤ 0 ∧ s.isGameOver = false then
    ({ health := max 0 (s.health - amount), energy := s.energy, isGameOver := true }, true)
  else
    ({ s with health := max 0 (s.health - amount) }, false)

/-- Source `shootLaser()`: guarded by `this.energy >= this.laserEnergyCost`;
on success builds one laser mesh (abstracted as the value `mk`), pushes it
onto `this.lasers`, and consumes `this.energy -= this.laserEnergyCost`.
Below the threshold the method body is skipped entirely. -/
def shootLaser {α : Type} (mk : α) (s : PlayerState) (lasers : List α) :
    PlayerState × List α :=
  if laserEnergyCost ≤ s.energy then
    ({ s with energy := s.energy - laserEnergyCost }, lasers ++ [mk])
  else (s, lasers)

/-- Sequence of `takeDamage` calls; also counts how many of the calls fired
the game-over transition. -/
def runDamage (s : PlayerState) : List ℚ → PlayerState × ℕ
  | [] => (s, 0)
  | a :: rest =>
      let r := takeDamage a s
      let r2 := runDamage r.1 rest
      (r2.1, (if r.2 then 1 else 0) + r2.2)

/-- Player states reachable from the initial state through the health/energy
operations of the update pipeline: energy recharge, movement-input energy
drain, damage application (`takeDamage(20)` from the lander-player
collision), and firing. -/
inductive Reachable : PlayerState → Prop
  | init : Reachable initPlayer
  | recharge {s} : Reachable s → Reachable (rechargeEnergy s)
  | drain {s} (keyQ keyE : Bool) : Reachable s → Reachable (verticalThrustDrain keyQ keyE s)
  | damage {s} : Reachable s → Reachable (takeDamage 20 s).1
  | shoot {s} : Reachable s → Reachable (shootLaser () s []).1

/-! ## Difficulty controller (updateDifficulty) -/

/-- Difficulty slice of the game state recomputed by `updateDifficulty`. -/
structure DifficultyState where
  difficulty : ℤ
  gameSpeed : ℚ
  landerSpawnInterval : ℚ
  maxEnemies : ℤ
deriving DecidableEq, Repr

/-- Source `updateDifficulty()`:
`timePlayed = (Date.now() - this.startTime) / 1000`;
`this.difficulty = Math.min(10, 1 + Math.floor(timePlayed / 30))`;
`this.gameSpeed = 1 + (this.difficulty * 0.1)`;
`this.landerSpawnInterval = Math.max(1000, 3000 - (this.difficulty * 200))`;
`this.maxEnemies = 5 + Math.floor(this.difficulty / 2)`. -/
def updateDifficulty (now startTime : ℚ) : DifficultyState :=
  let timePlayed : ℚ := (now - startTime) / 1000
  let d : ℤ := min 10 (1 + ⌊timePlayed / 30⌋)
  { difficulty := d
    gameSpeed := 1 + (d : ℚ) * 0.1
    landerSpawnInterval := max 1000 (3000 - (d : ℚ) * 200)
    maxEnemies := 5 + ⌊(d : ℚ) / 2⌋ }

/-! ## Lander spawner (update() spawn gate and spawnLander) -/

/-- Spawner slice of the game state: the landers collection is tracked by the
spawn coordinates `(x, z)` of each lander, together with
`lastLanderSpawn` and `landerSpawnInterval`. -/
structure SpawnState where
  landers : List (ℚ × ℚ)
  lastLanderSpawn : ℚ
  landerSpawnInterval : ℚ
deriving DecidableEq, Repr

/-- Source `spawnLander()`: `x = 400`, `z = Math.random() * 800 - 400`, then
pushes the new lander.  The random draw `Math.random()` is passed in as
`r` (the engine guarantees `0 <= r < 1`). -/
def spawnLander (r : ℚ) (s : SpawnState) : SpawnState :=
  { s with landers := s.landers ++ [(400, r * 800 - 400)] }

/-- Source `update()` spawn gate:
`if (currentTime - this.lastLanderSpawn > this.landerSpawnInterval) { this.spawnLander(); this.lastLanderSpawn = currentTime; }`. -/
def spawnTick (currentTime r : ℚ) (s : SpawnState) : SpawnState :=
  if currentTime - s.lastLanderSpawn > s.landerSpawnInterval then
    { spawnLander r s with lastLanderSpawn := currentTime }
  else s

/-! ## Entity geometry (BABYLON.Vector3 positions over the reals) -/

open Classical

/-- Position or direction vector; mirrors BABYLON.Vector3. -/
structure Vec3 where
  x : ℝ
  y : ℝ
  z : ℝ

/-- BABYLON.Vector3.Distance: Euclidean distance between two points. -/
noncomputable def dist3 (a b : Vec3) : ℝ :=
  Real.sqrt ((b.x - a.x) ^ 2 + (b.y - a.y) ^ 2 + (b.z - a.z) ^ 2)

/-- Length of a vector (BABYLON.Vector3.length). -/
noncomputable def norm3 (v : Vec3) : ℝ :=
  Real.sqrt (v.x ^ 2 + v.y ^ 2 + v.z ^ 2)

/-- The x component of `v.normalize()`.  BABYLON normalize scales by
`1 / length` and leaves the zero vector unchanged when the length is 0,
which agrees with division by zero being 0 here. -/
noncomputable def normalizedX (v : Vec3) : ℝ := v.x / norm3 v

/-! ## Lander AI (Lander.update) -/

/-- The simulation-relevant fields of a `Lander` object: the mesh position,
`initialZ` recorded at construction, and `speed` (0.3). -/
structure LanderObj where
  position : Vec3
  initialZ : ℝ
  speed : ℝ

/-- Planar distance computed in the nearest-astronaut scan of
`Lander.update`:
`Distance(new Vector3(mesh.x, 0, mesh.z), new Vector3(astronaut.x, 0, astronaut.z))`. -/
noncomputable def planarDist (px pz : ℝ) (a : Vec3) : ℝ :=
  dist3 ⟨px, 0, pz⟩ ⟨a.x, 0, a.z⟩

/-- The nearest-astronaut scan of `Lander.update`: iterates over the
astronauts in order, keeping the first strict minimizer of the planar
distance.  The source starts `minDistance` at `Infinity`, so the first
astronaut always becomes the initial candidate; the `none` accumulator
plays the role of the `Infinity` sentinel. -/
noncomputable def nearestGo (px pz : ℝ) : Option (Vec3 × ℝ) → List Vec3 → Option (Vec3 × ℝ)
  | best, [] => best
  | best, a :: rest =>
      match best with
      | none => nearestGo px pz (some (a, planarDist px pz a)) rest
      | some (b, m) =>
          if planarDist px pz a < m then
            nearestGo px pz (some (a, planarDist px pz a)) rest
          else nearestGo px pz (some (b, m)) rest

/-- The `nearestAstronaut` / `minDistance` result of the scan in
`Lander.update`, given the planar mesh coordinates. -/
noncomputable def nearestAstronaut (px pz : ℝ) (asts : List Vec3) : Option (Vec3 × ℝ) :=
  nearestGo px pz none asts

/-- Source `Lander.update(gamePlaneZ)`: first sets
`mesh.position.z = initialZ + gamePlaneZ`, then finds the nearest
astronaut by planar distance, and if one exists moves only the x
coordinate by `direction.x * speed` where `direction` is the normalized
3D vector from the (updated) mesh position to that astronaut. -/
noncomputable def landerUpdate (l : LanderObj) (gamePlaneZ : ℝ) (asts : List Vec3) : LanderObj :=
  match nearestAstronaut l.position.x (l.initialZ + gamePlaneZ) asts with
  | none => { l with position := ⟨l.position.x, l.position.y, l.initialZ + gamePlaneZ⟩ }
  | some (a, _) =>
      { l with position :=
          ⟨l.position.x +
              normalizedX ⟨a.x - l.position.x, a.y - l.position.y,
                a.z - (l.initialZ + gamePlaneZ)⟩ * l.speed,
            l.position.y, l.initialZ + gamePlaneZ⟩ }

/-! ## Collision scans (first-class updateLasers / updateLanders / checkCollisions) -/

/-- Inner collision loop shared shape: scan a collection from its last index
down to 0 and remove the first element satisfying `p`, or return none.
Mirrors `for (j = arr.length - 1; j >= 0; j--) if (p(arr[j])) { splice(j); ... }`
with an exit after the first match. -/
noncomputable def removeHitFromEnd {β : Type} (p : β → Prop) : List β → Option (List β)
  | [] => none
  | b :: rest =>
      match removeHitFromEnd p rest with
      | some rest2 => some (b :: rest2)
      | none => if p b then some rest else none

/-- The simulation-relevant fields of a laser mesh: position and the stored
`direction` unit vector. -/
structure LaserObj where
  position : Vec3
  direction : Vec3

/-- Constant `this.laserSpeed = 2` from `initializeGameProperties`. -/
noncomputable def laserSpeed : ℝ := 2

/-- Laser advance step of `updateLasers`:
`laser.position.addInPlace(laser.direction.scale(this.laserSpeed))`. -/
noncomputable def moveLaser (l : LaserObj) : LaserObj :=
  { l with position := ⟨l.position.x + l.direction.x * laserSpeed,
      l.position.y + l.direction.y * laserSpeed,
      l.position.z + l.direction.z * laserSpeed⟩ }

/-- Net effect of the no-hit part of the laser scan on a block of lasers:
each is moved by its direction times laserSpeed and then dropped when its
distance to the camera exceeds 500.  Used to state what `updateLasers`
does to the lasers it actually examines. -/
noncomputable def keptMoved (cam : Vec3) (ls : List LaserObj) : List LaserObj :=
  ls.filterMap (fun l =>
    if dist3 (moveLaser l).position cam > 500 then none else some (moveLaser l))

/-- Body of the first-class `updateLasers()`: iterate lasers from the last
index down (the reversed list `rev`), move each laser, scan the landers
from the last index down with the engine intersection test `hit`
(`laser.intersectsMesh(lander.mesh, false)`, abstracted); on the first
hit remove both, call `updateLandersDestroyed()`, and return at once
(the not-yet-scanned lasers in `rev` are left untouched).  Otherwise
remove the moved laser when
`Distance(laser.position, camera.position) > 500`.  `processed` holds
the moved surviving lasers already scanned, in original order; the Bool
result records whether a collision was resolved. -/
noncomputable def goLasers (hit : LaserObj → LanderObj → Prop) (cam : Vec3)
    (landers : List LanderObj) (g : ScoreState) :
    List LaserObj → List LaserObj → List LaserObj × List LanderObj × ScoreState × Bool
  | [], processed => (processed, landers, g, false)
  | laser :: rev, processed =>
      match removeHitFromEnd (hit (moveLaser laser)) landers with
      | some landers2 => (rev.reverse ++ processed, landers2, updateLandersDestroyed g, true)
      | none =>
          if dist3 (moveLaser laser).position cam > 500 then
            goLasers hit cam landers g rev processed
          else
            goLasers hit cam landers g rev (moveLaser laser :: processed)

/-- First-class `updateLasers()` (lines 511-538). -/
noncomputable def updateLasers (hit : LaserObj → LanderObj → Prop) (cam : Vec3)
    (lasers : List LaserObj) (landers : List LanderObj) (g : ScoreState) :
    List LaserObj × List LanderObj × ScoreState × Bool :=
  goLasers hit cam landers g lasers.reverse []

/-- Net effect of the no-hit part of the lander scan on a block of landers:
each runs `Lander.update`, is removed on a player collision
(distance < 3, with `takeDamage(20)`) or when its z drops below -500,
and is kept otherwise.  Used to state what `updateLanders` does to the
landers it actually examines. -/
noncomputable def keptLanders (cam : Vec3) (gz : ℝ) (asts : List Vec3)
    (ls : List LanderObj) : List LanderObj :=
  ls.filterMap (fun l =>
    if dist3 (landerUpdate l gz asts).position cam < 3 then none
    else if (landerUpdate l gz asts).position.z < -500 then none
    else some (landerUpdate l gz asts))

/-- Body of the first-class `updateLanders()`: iterate landers from the last
index down; run `lander.update(gamePlane.position.z)`; if
`Distance(lander.mesh.position, camera.position) < 3` apply
`takeDamage(20)` (counted in the ℕ result), remove the lander and
continue; else scan astronauts from the last index down with the engine
test `hitA` (`lander.mesh.intersectsMesh(astronaut, false)`, abstracted)
and on the first hit remove both and return at once (the not-yet-scanned
landers in `rev` are left untouched); else remove the lander when
`mesh.position.z < -500`.  The Bool result records whether a
lander-astronaut pair was resolved. -/
noncomputable def goLanders (hitA : LanderObj → Vec3 → Prop) (cam : Vec3) (gz : ℝ)
    (asts : List Vec3) :
    List LanderObj → List LanderObj → List LanderObj × List Vec3 × ℕ × Bool
  | [], processed => (processed, asts, 0, false)
  | lander :: rev, processed =>
      if dist3 (landerUpdate lander gz asts).position cam < 3 then
        ((goLanders hitA cam gz asts rev processed).1,
         (goLanders hitA cam gz asts rev processed).2.1,
         (goLanders hitA cam gz asts rev processed).2.2.1 + 1,
         (goLanders hitA cam gz asts rev processed).2.2.2)
      else
        match removeHitFromEnd (hitA (landerUpdate lander gz asts)) asts with
        | some asts2 => (rev.reverse ++ processed, asts2, 0, true)
        | none =>
            if (landerUpdate lander gz asts).position.z < -500 then
              goLanders hitA cam gz asts rev processed
            else
              goLanders hitA cam gz asts rev (landerUpdate lander gz asts :: processed)

/-- First-class `updateLanders()` (lines 555-591). -/
noncomputable def updateLanders (hitA : LanderObj → Vec3 → Prop) (cam : Vec3) (gz : ℝ)
    (landers : List LanderObj) (asts : List Vec3) :
    List LanderObj × List Vec3 × ℕ × Bool :=
  goLanders hitA cam gz asts landers.reverse []

/-- An element of `this.landers` as pushed by `spawnLander` (line 551): a
`Lander` class instance wrapping its mesh.  The wrapper exposes `mesh`,
`initialZ`, `speed` and `astronauts` but defines no own `position`
property, so the property read `lander.position` yields the JavaScript
value undefined. -/
structure LanderWrapper where
  meshPosition : Vec3

/-- The `lander.position` property read performed by `checkCollisions`
(line 1494, and line 1511 inside `checkObjectCollision`): undefined for
every `Lander` wrapper, embedded as `none`. -/
def landerPositionRead (_l : LanderWrapper) : Option Vec3 := none

/-- Inner lander loop of `checkCollisions` for one laser (lines 1489-1506):
scans the landers from the last index down; each iteration evaluates
`checkObjectCollision(laser, lander)` =
`Vector3.Distance(laser.position, lander.position) < 2`, and `Distance`
on the undefined `lander.position` throws a TypeError
(`Except.error`); the `some p` arm keeps the structure of the distance
test for a position that were defined.  Returns `some` of the reduced
list on a resolved hit, `none` when the loop body found no hit. -/
noncomputable def checkScanLanders (laser : Vec3) :
    List LanderWrapper → Except Unit (Option (List LanderWrapper))
  | [] => Except.ok none
  | lander :: rest =>
      match checkScanLanders laser rest with
      | Except.error e => Except.error e
      | Except.ok (some rest2) => Except.ok (some (lander :: rest2))
      | Except.ok none =>
          match landerPositionRead lander with
          | none => Except.error ()
          | some p => if dist3 laser p < 2 then Except.ok (some rest) else Except.ok none

/-- Body of `checkCollisions()` (lines 1484-1508): iterate lasers from the
last index down; on a resolved hit remove both, call `updateScore(100)`
and continue with the remaining lasers; a thrown TypeError aborts the
whole call (it propagates to the `update()` boundary, whose catch sets
`isRunning = false`). -/
noncomputable def goCheckRun :
    List Vec3 → List LanderWrapper → ScoreState →
      Except Unit (List Vec3 × List LanderWrapper × ScoreState)
  | [], landers, g => Except.ok ([], landers, g)
  | laser :: rev, landers, g =>
      match checkScanLanders laser landers with
      | Except.error e => Except.error e
      | Except.ok (some landers2) => goCheckRun rev landers2 (updateScore 100 g)
      | Except.ok none =>
          match goCheckRun rev landers g with
          | Except.error e => Except.error e
          | Except.ok r => Except.ok (r.1 ++ [laser], r.2.1, r.2.2)

/-- Source `checkCollisions()` (lines 1484-1508), over the laser mesh
positions and the `Lander` wrappers the game actually stores in
`this.landers`. -/
noncomputable def checkCollisions (lasers : List Vec3) (landers : List LanderWrapper)
    (g : ScoreState) : Except Unit (List Vec3 × List LanderWrapper × ScoreState) :=
  goCheckRun lasers.reverse landers g

/-! ## Closest-lander telemetry (getClosestLanderDistance) -/

/-- Scan loop of `getClosestLanderDistance`: keep the smaller of the running
minimum and `Distance(camera.position, lander.mesh.position)`.  The
source seeds the minimum with `Infinity`; since every real distance is
below that sentinel, the first lander always replaces it, so the loop is
entered here with the distance to the first lander. -/
noncomputable def closestGo (cam : Vec3) : ℝ → List Vec3 → ℝ
  | closest, [] => closest
  | closest, l :: rest =>
      if dist3 cam l < closest then closestGo cam (dist3 cam l) rest
      else closestGo cam closest rest

/-- Source `getClosestLanderDistance()`: returns 0 when the landers
collection is empty, else the minimum distance from the camera to a
lander. -/
noncomputable def getClosestLanderDistance (cam : Vec3) : List Vec3 → ℝ
  | [] => 0
  | l :: rest => closestGo cam (dist3 cam l) rest

/-! ## Helper lemmas for the nearest-astronaut scan -/

lemma nearestGo_spec (px pz : ℝ) (l : List Vec3) :
    ∀ b : Vec3, ∃ c : Vec3,
      nearestGo px pz (some (b, planarDist px pz b)) l = some (c, planarDist px pz c) ∧
      ((c = b ∧ ∀ y ∈ l, planarDist px pz b ≤ planarDist px pz y) ∨
        ∃ pre suf, l = pre ++ c :: suf ∧ planarDist px pz c < planarDist px pz b ∧
          (∀ y ∈ pre, planarDist px pz c < planarDist px pz y) ∧
          (∀ y ∈ suf, planarDist px pz c ≤ planarDist px pz y)) := by
  induction l with
  | nil =>
      intro b
      exact ⟨b, rfl, Or.inl ⟨rfl, by simp⟩⟩
  | cons a rest ih =>
      intro b
      by_cases h : planarDist px pz a < planarDist px pz b
      · obtain ⟨c, hc, hcase⟩ := ih a
        refine ⟨c, ?_, ?_⟩
        · simp only [nearestGo]
          rw [if_pos h]
          exact hc
        · rcases hcase with ⟨rfl, hall⟩ | ⟨pre, suf, heq, hlt, hpre, hsuf⟩
          · exact Or.inr ⟨[], rest, rfl, h, by simp, hall⟩
          · refine Or.inr ⟨a :: pre, suf, by rw [heq, List.cons_append], lt_trans hlt h, ?_, hsuf⟩
            intro y hy
            rcases List.mem_cons.mp hy with rfl | hy
            · exact hlt
            · exact hpre y hy
      · obtain ⟨c, hc, hcase⟩ := ih b
        refine ⟨c, ?_, ?_⟩
        · simp only [nearestGo]
          rw [if_neg h]
          exact hc
        · rcases hcase with ⟨rfl, hall⟩ | ⟨pre, suf, heq, hlt, hpre, hsuf⟩
          · refine Or.inl ⟨rfl, ?_⟩
            intro y hy
            rcases List.mem_cons.mp hy with rfl | hy
            · exact not_lt.mp h
            · exact hall y hy
          · refine Or.inr ⟨a :: pre, suf, by rw [heq, List.cons_append], hlt, ?_, hsuf⟩
            intro y hy
            rcases List.mem_cons.mp hy with rfl | hy
            · exact lt_of_lt_of_le hlt (not_lt.mp h)
            · exact hpre y hy

lemma abs_normalizedX_le_one (v : Vec3) : |normalizedX v| ≤ 1 := by
  unfold normalizedX norm3
  rcases eq_or_ne (Real.sqrt (v.x ^ 2 + v.y ^ 2 + v.z ^ 2)) 0 with h | h
  · rw [h, div_zero, abs_zero]
    norm_num
  · have hpos : 0 < Real.sqrt (v.x ^ 2 + v.y ^ 2 + v.z ^ 2) :=
      lt_of_le_of_ne (Real.sqrt_nonneg _) (Ne.symm h)
    rw [abs_div, abs_of_nonneg (Real.sqrt_nonneg _), div_le_one hpos]
    calc |v.x| = Real.sqrt (v.x ^ 2) := (Real.sqrt_sq_eq_abs v.x).symm
      _ ≤ Real.sqrt (v.x ^ 2 + v.y ^ 2 + v.z ^ 2) :=
          Real.sqrt_le_sqrt (by nlinarith [sq_nonneg v.y, sq_nonneg v.z])

lemma dist3_nonneg (a b : Vec3) : 0 ≤ dist3 a b := Real.sqrt_nonneg _

lemma normalizedX_eq_div_dist3 (px py pz : ℝ) (a : Vec3) :
    normalizedX ⟨a.x - px, a.y - py, a.z - pz⟩ = (a.x - px) / dist3 ⟨px, py, pz⟩ a := rfl

/-! ## Claim theorems: lander AI -/

/-- C6 (amended): Lander.update sets z to initialZ + scrollOffset (steering
touches only x), holds x when no astronauts are present, selects the
nearest live astronaut by planar (x,z) distance with ties broken in
favor of the first-encountered minimum, and moves x toward that
astronaut by speed per tick along the x component of the normalized
direction vector: writing p for the scrolled mesh position and a for
the selected astronaut, the new x is
p.x + (a.x - p.x) / dist3 p a * speed, which for positive speed and
distinct positions moves strictly toward the target x and never by more
than speed.  On the spec scenario the selected target is the astronaut
at (10,0,50), whose planar distance sqrt 154600 beats 400 - see the
counterexample theorem. -/
theorem C6_lander_steering :
    (∀ (l : LanderObj) (gz : ℝ) (asts : List Vec3),
      (landerUpdate l gz asts).position.z = l.initialZ + gz ∧
      (landerUpdate l gz asts).position.y = l.position.y ∧
      (landerUpdate l gz asts).initialZ = l.initialZ ∧
      (landerUpdate l gz asts).speed = l.speed) ∧
    (∀ (l : LanderObj) (gz : ℝ),
      (landerUpdate l gz []).position.x = l.position.x) ∧
    (∀ (px pz : ℝ) (a : Vec3) (rest : List Vec3), ∃ c : Vec3,
      nearestAstronaut px pz (a :: rest) = some (c, planarDist px pz c) ∧
      (∀ y ∈ a :: rest, planarDist px pz c ≤ planarDist px pz y) ∧
      ∃ pre suf, a :: rest = pre ++ c :: suf ∧
        (∀ y ∈ pre, planarDist px pz c < planarDist px pz y) ∧
        (∀ y ∈ suf, planarDist px pz c ≤ planarDist px pz y)) ∧
    (∀ (l : LanderObj) (gz : ℝ) (asts : List Vec3) (a : Vec3) (d : ℝ),
      nearestAstronaut l.position.x (l.initialZ + gz) asts = some (a, d) →
      (landerUpdate l gz asts).position.x
          = l.position.x
            + (a.x - l.position.x)
              / dist3 ⟨l.position.x, l.position.y, l.initialZ + gz⟩ a * l.speed ∧
      (0 < l.speed → dist3 ⟨l.position.x, l.position.y, l.initialZ + gz⟩ a ≠ 0 →
        (a.x < l.position.x → (landerUpdate l gz asts).position.x < l.position.x) ∧
        (l.position.x < a.x → l.position.x < (landerUpdate l gz asts).position.x) ∧
        (a.x = l.position.x → (landerUpdate l gz asts).position.x = l.position.x))) ∧
    (∀ (l : LanderObj) (gz : ℝ) (asts : List Vec3), 0 ≤ l.speed →
      |(landerUpdate l gz asts).position.x - l.position.x| ≤ l.speed) := by
  refine ⟨?_, ?_, ?_, ?_, ?_⟩
  · intro l gz asts
    cases h : nearestAstronaut l.position.x (l.initialZ + gz) asts with
    | none => simp [landerUpdate, h]
    | some p =>
        obtain ⟨a, d⟩ := p
        simp [landerUpdate, h]
  · intro l gz
    have h : nearestAstronaut l.position.x (l.initialZ + gz) [] = none := rfl
    simp [landerUpdate, h]
  · intro px pz a rest
    obtain ⟨c, hc, hcase⟩ := nearestGo_spec px pz rest a
    have hstep : nearestAstronaut px pz (a :: rest)
        = nearestGo px pz (some (a, planarDist px pz a)) rest := rfl
    have hsplit : ∃ pre suf, a :: rest = pre ++ c :: suf ∧
        (∀ y ∈ pre, planarDist px pz c < planarDist px pz y) ∧
        (∀ y ∈ suf, planarDist px pz c ≤ planarDist px pz y) := by
      rcases hcase with ⟨hca, hall⟩ | ⟨pre, suf, heq, hlt, hpre, hsuf⟩
      · subst hca
        exact ⟨[], rest, rfl, by simp, hall⟩
      · refine ⟨a :: pre, suf, by rw [heq, List.cons_append], ?_, hsuf⟩
        intro y hy
        rcases List.mem_cons.mp hy with rfl | hy2
        · exact hlt
        · exact hpre y hy2
    obtain ⟨pre, suf, heq, hpre, hsuf⟩ := hsplit
    refine ⟨c, hstep.trans hc, ?_, pre, suf, heq, hpre, hsuf⟩
    intro y hy
    rw [heq] at hy
    rcases List.mem_append.mp hy with hy | hy
    · exact le_of_lt (hpre y hy)
    · rcases List.mem_cons.mp hy with rfl | hy2
      · exact le_refl _
      · exact hsuf y hy2
  · intro l gz asts a d h
    have hlaw : (landerUpdate l gz asts).position.x
        = l.position.x
          + (a.x - l.position.x)
            / dist3 ⟨l.position.x, l.position.y, l.initialZ + gz⟩ a * l.speed := by
      simp only [landerUpdate, h]
      rw [normalizedX_eq_div_dist3]
    refine ⟨hlaw, ?_⟩
    intro hs hD
    have hDpos : 0 < dist3 ⟨l.position.x, l.position.y, l.initialZ + gz⟩ a :=
      lt_of_le_of_ne (dist3_nonneg _ _) (Ne.symm hD)
    refine ⟨?_, ?_, ?_⟩
    · intro hax
      have hq : (a.x - l.position.x)
          / dist3 ⟨l.position.x, l.position.y, l.initialZ + gz⟩ a < 0 :=
        div_neg_of_neg_of_pos (by linarith) hDpos
      have := mul_neg_of_neg_of_pos hq hs
      linarith [hlaw]
    · intro hax
      have hq : 0 < (a.x - l.position.x)
          / dist3 ⟨l.position.x, l.position.y, l.initialZ + gz⟩ a :=
        div_pos (by linarith) hDpos
      have := mul_pos hq hs
      linarith [hlaw]
    · intro hax
      rw [hlaw, hax]
      simp
  · intro l gz asts hs
    cases h : nearestAstronaut l.position.x (l.initialZ + gz) asts with
    | none =>
        simp only [landerUpdate, h]
        simp [hs]
    | some p =>
        obtain ⟨a, d⟩ := p
        simp only [landerUpdate, h]
        have hx : ({ l with position :=
            ⟨l.position.x +
                normalizedX ⟨a.x - l.position.x, a.y - l.position.y,
                  a.z - (l.initialZ + gz)⟩ * l.speed,
              l.position.y, l.initialZ + gz⟩ } : LanderObj).position.x - l.position.x
            = normalizedX ⟨a.x - l.position.x, a.y - l.position.y,
                a.z - (l.initialZ + gz)⟩ * l.speed := by
          dsimp only
          ring
        rw [hx, abs_mul, abs_of_nonneg hs]
        calc |normalizedX ⟨a.x - l.position.x, a.y - l.position.y,
                a.z - (l.initialZ + gz)⟩| * l.speed
            ≤ 1 * l.speed := mul_le_mul_of_nonneg_right (abs_normalizedX_le_one _) hs
          _ = l.speed := one_mul _

theorem C6_witness :
    (landerUpdate ⟨⟨400, 0, 0⟩, 0, 0.3⟩ 0 [⟨0, 0, 0⟩]).position.z = 0 + 0 ∧
    (landerUpdate ⟨⟨400, 0, 0⟩, 0, 0.3⟩ 0 [⟨0, 0, 0⟩]).position.x
        = 400 + (0 - 400) / dist3 ⟨400, 0, 0 + 0⟩ ⟨0, 0, 0⟩ * 0.3 ∧
    (landerUpdate ⟨⟨400, 0, 0⟩, 0, 0.3⟩ 0 [⟨0, 0, 0⟩]).position.x < 400 ∧
    |(landerUpdate ⟨⟨400, 0, 0⟩, 0, 0.3⟩ 0 [⟨0, 0, 0⟩]).position.x - 400| ≤ 0.3 := by
  have hD : dist3 ⟨(400 : ℝ), 0, 0 + 0⟩ ⟨0, 0, 0⟩ ≠ 0 := by
    unfold dist3
    dsimp only
    have h1 : ((0 : ℝ) - 400) ^ 2 + (0 - 0) ^ 2 + (0 - (0 + 0)) ^ 2 = 160000 := by norm_num
    rw [h1]
    exact ne_of_gt (Real.sqrt_pos.mpr (by norm_num))
  have hmain := C6_lander_steering.2.2.2.1 ⟨⟨400, 0, 0⟩, 0, 0.3⟩ 0 [⟨0, 0, 0⟩]
    ⟨0, 0, 0⟩ (planarDist 400 (0 + 0) ⟨0, 0, 0⟩) rfl
  refine ⟨(C6_lander_steering.1 ⟨⟨400, 0, 0⟩, 0, 0.3⟩ 0 [⟨0, 0, 0⟩]).1,
    hmain.1, (hmain.2 (by norm_num) hD).1 (by norm_num),
    C6_lander_steering.2.2.2.2 ⟨⟨400, 0, 0⟩, 0, 0.3⟩ 0 [⟨0, 0, 0⟩] (by norm_num)⟩

/-- C6 counterexample: for a lander at (400,0,0) and astronauts at (0,0,0)
and (10,0,50), the nearest-astronaut scan selects the astronaut at
(10,0,50) - planar distance sqrt 154600 < sqrt 160000 - not the
astronaut at x = 0 as the claim scenario states. -/
theorem C6_counterexample :
    (nearestAstronaut 400 0 [⟨0, 0, 0⟩, ⟨10, 0, 50⟩]).map (fun q => q.1.x) = some 10 ∧
    (nearestAstronaut 400 0 [⟨0, 0, 0⟩, ⟨10, 0, 50⟩]).map (fun q => q.1.x) ≠ some 0 := by
  have hAB : planarDist 400 0 ⟨10, 0, 50⟩ < planarDist 400 0 ⟨0, 0, 0⟩ := by
    unfold planarDist dist3
    dsimp only
    have h1 : ((10 : ℝ) - 400) ^ 2 + (0 - 0) ^ 2 + (50 - 0) ^ 2 = 154600 := by norm_num
    have h2 : ((0 : ℝ) - 400) ^ 2 + (0 - 0) ^ 2 + (0 - 0) ^ 2 = 160000 := by norm_num
    rw [h1, h2]
    exact Real.sqrt_lt_sqrt (by norm_num) (by norm_num)
  have hkey : nearestAstronaut 400 0 [⟨0, 0, 0⟩, ⟨10, 0, 50⟩]
      = some (⟨10, 0, 50⟩, planarDist 400 0 ⟨10, 0, 50⟩) := by
    have hstep : nearestAstronaut 400 0 [⟨0, 0, 0⟩, ⟨10, 0, 50⟩]
        = if planarDist 400 0 ⟨10, 0, 50⟩ < planarDist 400 0 ⟨0, 0, 0⟩ then
            nearestGo 400 0 (some (⟨10, 0, 50⟩, planarDist 400 0 ⟨10, 0, 50⟩)) []
          else nearestGo 400 0 (some (⟨0, 0, 0⟩, planarDist 400 0 ⟨0, 0, 0⟩)) [] := rfl
    rw [hstep, if_pos hAB]
    rfl
  refine ⟨by rw [hkey]; rfl, ?_⟩
  rw [hkey]
  intro hcontra
  have h10 : (10 : ℝ) = 0 := by
    have h2 := Option.some.inj hcontra
    exact h2
  norm_num at h10

/-! ## Helper lemmas for the resource economy -/

lemma takeDamage_health_le {a : ℚ} (s : PlayerState) (ha : 0 ≤ a) (hs : 0 ≤ s.health) :
    (takeDamage a s).1.health ≤ s.health := by
  unfold takeDamage
  split <;> dsimp only <;> exact max_le hs (by linarith)

lemma takeDamage_health_nonneg (a : ℚ) (s : PlayerState) : 0 ≤ (takeDamage a s).1.health := by
  unfold takeDamage
  split <;> dsimp only <;> exact le_max_left _ _

lemma takeDamage_gameOver_true {a : ℚ} {s : PlayerState} (h : s.isGameOver = true) :
    (takeDamage a s).1.isGameOver = true ∧ (takeDamage a s).2 = false := by
  unfold takeDamage
  split
  · next hc => exact absurd hc.2 (by simp [h])
  · exact ⟨h, rfl⟩

lemma takeDamage_fired_gameOver {a : ℚ} {s : PlayerState} (h : (takeDamage a s).2 = true) :
    (takeDamage a s).1.isGameOver = true := by
  unfold takeDamage at h ⊢
  split at h
  · next hc => simp only [if_pos hc]
  · simp at h

lemma runDamage_gameOver {s : PlayerState} (l : List ℚ) (h : s.isGameOver = true) :
    (runDamage s l).2 = 0 := by
  induction l generalizing s with
  | nil => rfl
  | cons a rest ih =>
      obtain ⟨h1, h2⟩ := takeDamage_gameOver_true (a := a) h
      simp only [runDamage, h2, if_neg Bool.false_ne_true, ih h1]

lemma runDamage_health_le (s : PlayerState) (l : List ℚ)
    (hl : ∀ a ∈ l, 0 ≤ a) (hs : 0 ≤ s.health) :
    (runDamage s l).1.health ≤ s.health ∧ 0 ≤ (runDamage s l).1.health := by
  induction l generalizing s with
  | nil => exact ⟨le_rfl, hs⟩
  | cons a rest ih =>
      have ha : 0 ≤ a := hl a (by simp)
      have h1 := takeDamage_health_le s ha hs
      have h2 := takeDamage_health_nonneg a s
      have := ih (takeDamage a s).1 (fun b hb => hl b (by simp [hb])) h2
      exact ⟨le_trans this.1 h1, this.2⟩

lemma runDamage_fired_le_one (s : PlayerState) (l : List ℚ) : (runDamage s l).2 ≤ 1 := by
  induction l generalizing s with
  | nil => exact Nat.zero_le 1
  | cons a rest ih =>
      by_cases hf : (takeDamage a s).2 = true
      · have := runDamage_gameOver rest (takeDamage_fired_gameOver hf)
        simp [runDamage, hf, this]
      · simp only [Bool.not_eq_true] at hf
        simp only [runDamage, hf, if_neg Bool.false_ne_true, Nat.zero_add]
        exact ih _

/-! ## Claim theorems: resource economy -/

/-- C1: for every state reachable through the update pipeline operations
(energy recharge, movement-input energy drain, damage application, firing),
the player health satisfies 0 ≤ health ≤ maxHealth and the player energy
satisfies 0 ≤ energy ≤ maxEnergy. -/
theorem C1_health_energy_bounds {s : PlayerState} (h : Reachable s) :
    0 ≤ s.health ∧ s.health ≤ maxHealth ∧ 0 ≤ s.energy ∧ s.energy ≤ maxEnergy := by
  induction h with
  | init => refine ⟨?_, ?_, ?_, ?_⟩ <;> norm_num [initPlayer, maxHealth, maxEnergy]
  | recharge _ ih =>
      obtain ⟨h1, h2, h3, h4⟩ := ih
      unfold rechargeEnergy
      split
      · refine ⟨h1, h2, ?_, min_le_left _ _⟩
        exact le_min (by norm_num [maxEnergy]) (by unfold energyRechargeRate; linarith)
      · exact ⟨h1, h2, h3, h4⟩
  | drain keyQ keyE _ ih =>
      obtain ⟨h1, h2, h3, h4⟩ := ih
      unfold verticalThrustDrain
      split
      · exact ⟨h1, h2, le_max_left _ _, max_le (by norm_num [maxEnergy]) (by linarith)⟩
      · split
        · exact ⟨h1, h2, le_max_left _ _, max_le (by norm_num [maxEnergy]) (by linarith)⟩
        · exact ⟨h1, h2, h3, h4⟩
  | damage _ ih =>
      obtain ⟨h1, h2, h3, h4⟩ := ih
      unfold takeDamage
      split <;>
        exact ⟨le_max_left _ _, max_le (by norm_num [maxHealth]) (by linarith), h3, h4⟩
  | shoot _ ih =>
      obtain ⟨h1, h2, h3, h4⟩ := ih
      unfold shootLaser
      split
      · next hc => exact ⟨h1, h2, by dsimp only; unfold laserEnergyCost at hc ⊢; linarith,
          by dsimp only; unfold laserEnergyCost; linarith⟩
      · exact ⟨h1, h2, h3, h4⟩

theorem C1_witness :
    0 ≤ initPlayer.health ∧ initPlayer.health ≤ maxHealth ∧
      0 ≤ initPlayer.energy ∧ initPlayer.energy ≤ maxEnergy :=
  C1_health_energy_bounds Reachable.init

/-- C3: with energy below laserEnergyCost, shootLaser is a silent no-op
(energy and laser list unchanged); with energy at least laserEnergyCost it
appends exactly one laser and subtracts exactly laserEnergyCost from
energy.  Ten consecutive fires from energy 100 end at energy 0 with ten
lasers, and the eleventh fire changes nothing. -/
theorem C3_fire_gate {α : Type} (mk : α) (s : PlayerState) (lasers : List α) :
    (s.energy < laserEnergyCost → shootLaser mk s lasers = (s, lasers)) ∧
    (laserEnergyCost ≤ s.energy →
      (shootLaser mk s lasers).2 = lasers ++ [mk] ∧
      (shootLaser mk s lasers).1.energy = s.energy - laserEnergyCost ∧
      (shootLaser mk s lasers).1.health = s.health ∧
      (shootLaser mk s lasers).1.isGameOver = s.isGameOver) ∧
    ((fun p : PlayerState × List Unit => shootLaser () p.1 p.2)^[10] (initPlayer, [])).1.energy
        = 0 ∧
    ((fun p : PlayerState × List Unit => shootLaser () p.1 p.2)^[10] (initPlayer, [])).2.length
        = 10 ∧
    (fun p : PlayerState × List Unit => shootLaser () p.1 p.2)^[11] (initPlayer, [])
        = (fun p : PlayerState × List Unit => shootLaser () p.1 p.2)^[10] (initPlayer, []) := by
  refine ⟨?_, ?_, ?_, ?_, ?_⟩
  · intro h
    unfold shootLaser
    rw [if_neg (by exact not_le.mpr h)]
  · intro h
    unfold shootLaser
    rw [if_pos h]
    exact ⟨rfl, rfl, rfl, rfl⟩
  · norm_num [Function.iterate_succ_apply, shootLaser, initPlayer, maxHealth, maxEnergy,
      laserEnergyCost]
  · norm_num [Function.iterate_succ_apply, shootLaser, initPlayer, maxHealth, maxEnergy,
      laserEnergyCost]
  · norm_num [Function.iterate_succ_apply, shootLaser, initPlayer, maxHealth, maxEnergy,
      laserEnergyCost]

theorem C3_witness :
    shootLaser () ⟨100, 5, false⟩ ([] : List Unit) = (⟨100, 5, false⟩, []) ∧
    (shootLaser () initPlayer ([] : List Unit)).1.energy = initPlayer.energy - laserEnergyCost :=
  ⟨(C3_fire_gate () ⟨100, 5, false⟩ []).1 (by norm_num [laserEnergyCost]),
   ((C3_fire_gate () initPlayer []).2.1 (by norm_num [initPlayer, maxEnergy, laserEnergyCost])).2.1⟩

/-- C4: under nonnegative damage amounts, health never increases across any
sequence of takeDamage calls and is clamped at 0, and the game-over
transition fires at most once; starting from health 100, five damage-20
calls reach health 0 with the transition firing exactly once, and a
further call does not fire it again. -/
theorem C4_damage_clamp_gameover_once :
    (∀ (s : PlayerState) (amounts : List ℚ), (∀ a ∈ amounts, 0 ≤ a) → 0 ≤ s.health →
      (runDamage s amounts).1.health ≤ s.health ∧
      0 ≤ (runDamage s amounts).1.health ∧
      (runDamage s amounts).2 ≤ 1 ∧
      (s.isGameOver = true → (runDamage s amounts).2 = 0)) ∧
    (runDamage initPlayer (List.replicate 5 20)).1.health = 0 ∧
    (runDamage initPlayer (List.replicate 5 20)).2 = 1 ∧
    (runDamage initPlayer (List.replicate 6 20)).2 = 1 ∧
    (takeDamage 20 (runDamage initPlayer (List.replicate 5 20)).1).2 = false := by
  refine ⟨fun s amounts hl hs => ?_, ?_, ?_, ?_, ?_⟩
  · obtain ⟨h1, h2⟩ := runDamage_health_le s amounts hl hs
    exact ⟨h1, h2, runDamage_fired_le_one s amounts, fun hg => runDamage_gameOver amounts hg⟩
  · norm_num [runDamage, takeDamage, initPlayer, maxHealth, maxEnergy, List.replicate]
  · norm_num [runDamage, takeDamage, initPlayer, maxHealth, maxEnergy, List.replicate]
  · norm_num [runDamage, takeDamage, initPlayer, maxHealth, maxEnergy, List.replicate]
  · norm_num [runDamage, takeDamage, initPlayer, maxHealth, maxEnergy, List.replicate]

theorem C4_witness :
    (runDamage initPlayer [20]).1.health ≤ initPlayer.health ∧
    0 ≤ (runDamage initPlayer [20]).1.health ∧
    (runDamage initPlayer [20]).2 ≤ 1 ∧
    (initPlayer.isGameOver = true → (runDamage initPlayer [20]).2 = 0) :=
  C4_damage_clamp_gameover_once.1 initPlayer [20]
    (by intro a ha; simp at ha; norm_num [ha]) (by norm_num [initPlayer, maxHealth])

/-! ## Claim theorems: difficulty controller -/

/-- C5: updateDifficulty computes difficulty = min 10 (1 + floor(t/30)) from
the elapsed seconds t = (now - startTime)/1000, gameSpeed
= 1 + difficulty * 0.1, landerSpawnInterval
= max 1000 (3000 - difficulty * 200) and maxEnemies
= 5 + floor(difficulty / 2); at t = 65 it yields difficulty 3 and
spawn interval 2400 ms. -/
theorem C5_difficulty_formula (now startTime t : ℚ) (ht : t = (now - startTime) / 1000) :
    (updateDifficulty now startTime).difficulty = min 10 (1 + ⌊t / 30⌋) ∧
    (updateDifficulty now startTime).gameSpeed
        = 1 + ((min 10 (1 + ⌊t / 30⌋) : ℤ) : ℚ) * 0.1 ∧
    (updateDifficulty now startTime).landerSpawnInterval
        = max 1000 (3000 - ((min 10 (1 + ⌊t / 30⌋) : ℤ) : ℚ) * 200) ∧
    (updateDifficulty now startTime).maxEnemies
        = 5 + ⌊((min 10 (1 + ⌊t / 30⌋) : ℤ) : ℚ) / 2⌋ ∧
    (updateDifficulty 65000 0).difficulty = 3 ∧
    (updateDifficulty 65000 0).landerSpawnInterval = 2400 := by
  subst ht
  refine ⟨rfl, rfl, rfl, rfl, ?_, ?_⟩ <;> norm_num [updateDifficulty]

theorem C5_witness :
    (updateDifficulty 65000 0).difficulty = min 10 (1 + ⌊(65 : ℚ) / 30⌋) ∧
    (updateDifficulty 65000 0).difficulty = 3 :=
  ⟨(C5_difficulty_formula 65000 0 65 (by norm_num)).1,
   (C5_difficulty_formula 65000 0 65 (by norm_num)).2.2.2.2.1⟩

/-- C9: the difficulty computed by updateDifficulty is monotone
non-decreasing in the current time (hence in elapsed time) and never
exceeds 10. -/
theorem C9_difficulty_monotone_capped :
    (∀ (startTime now1 now2 : ℚ), now1 ≤ now2 →
      (updateDifficulty now1 startTime).difficulty
        ≤ (updateDifficulty now2 startTime).difficulty) ∧
    (∀ (now startTime : ℚ), (updateDifficulty now startTime).difficulty ≤ 10) := by
  constructor
  · intro startTime now1 now2 h
    simp only [updateDifficulty]
    refine min_le_min le_rfl (add_le_add_left (Int.floor_le_floor ?_) 1)
    have hsub : now1 - startTime ≤ now2 - startTime := by linarith
    gcongr
  · intro now startTime
    exact min_le_left _ _

theorem C9_witness :
    (updateDifficulty 0 0).difficulty ≤ (updateDifficulty 30000 0).difficulty ∧
    (updateDifficulty 30000 0).difficulty ≤ 10 :=
  ⟨C9_difficulty_monotone_capped.1 0 0 30000 (by norm_num),
   C9_difficulty_monotone_capped.2 30000 0⟩

/-! ## Claim theorems: spawner -/

/-- C7: a lander is spawned exactly when currentTime - lastSpawnTime
strictly exceeds spawnInterval; the spawned lander has x = 400 and
z = r * 800 - 400 (within the half-open interval from -400 to 400 for
r in the unit interval), and lastSpawnTime is reset to currentTime;
otherwise the spawner changes nothing. -/
theorem C7_spawn_gate (currentTime r : ℚ) (s : SpawnState) :
    (currentTime - s.lastLanderSpawn > s.landerSpawnInterval →
      (spawnTick currentTime r s).landers = s.landers ++ [(400, r * 800 - 400)] ∧
      (spawnTick currentTime r s).lastLanderSpawn = currentTime ∧
      (spawnTick currentTime r s).landerSpawnInterval = s.landerSpawnInterval ∧
      (0 ≤ r → r < 1 → -400 ≤ r * 800 - 400 ∧ r * 800 - 400 < 400)) ∧
    (¬ (currentTime - s.lastLanderSpawn > s.landerSpawnInterval) →
      spawnTick currentTime r s = s) := by
  constructor
  · intro h
    unfold spawnTick spawnLander
    rw [if_pos h]
    refine ⟨rfl, rfl, rfl, fun h0 h1 => ⟨by linarith, by linarith⟩⟩
  · intro h
    unfold spawnTick
    rw [if_neg h]

theorem C7_witness :
    (spawnTick 3001 0 ⟨[], 0, 3000⟩).landers = [] ++ [(400, (0 : ℚ) * 800 - 400)] ∧
    (spawnTick 3001 0 ⟨[], 0, 3000⟩).lastLanderSpawn = 3001 ∧
    spawnTick 100 0 ⟨[], 0, 3000⟩ = ⟨[], 0, 3000⟩ :=
  ⟨((C7_spawn_gate 3001 0 ⟨[], 0, 3000⟩).1 (by norm_num)).1,
   ((C7_spawn_gate 3001 0 ⟨[], 0, 3000⟩).1 (by norm_num)).2.1,
   (C7_spawn_gate 100 0 ⟨[], 0, 3000⟩).2 (by norm_num)⟩

/-! ## Helper lemmas for the collision scans -/

lemma removeHitFromEnd_none {β : Type} (p : β → Prop) :
    ∀ l : List β, removeHitFromEnd p l = none → ∀ y ∈ l, ¬ p y := by
  intro l
  induction l with
  | nil =>
      intro _ y hy
      simp at hy
  | cons b rest ih =>
      intro h y hy
      rcases hrec : removeHitFromEnd p rest with _ | rest2
      · simp only [removeHitFromEnd, hrec] at h
        by_cases hb : p b
        · rw [if_pos hb] at h
          exact absurd h (by simp)
        · rcases List.mem_cons.mp hy with rfl | hy2
          · exact hb
          · exact ih hrec y hy2
      · simp only [removeHitFromEnd, hrec] at h
        simp at h

lemma removeHitFromEnd_some {β : Type} (p : β → Prop) :
    ∀ l l2 : List β, removeHitFromEnd p l = some l2 →
      ∃ pre b suf, l = pre ++ b :: suf ∧ l2 = pre ++ suf ∧ p b ∧ ∀ y ∈ suf, ¬ p y := by
  intro l
  induction l with
  | nil =>
      intro l2 h
      simp [removeHitFromEnd] at h
  | cons b rest ih =>
      intro l2 h
      rcases hrec : removeHitFromEnd p rest with _ | rest2
      · simp only [removeHitFromEnd, hrec] at h
        by_cases hb : p b
        · rw [if_pos hb] at h
          obtain rfl : rest = l2 := Option.some.inj h
          exact ⟨[], b, rest, rfl, rfl, hb, removeHitFromEnd_none p rest hrec⟩
        · rw [if_neg hb] at h
          exact absurd h (by simp)
      · simp only [removeHitFromEnd, hrec] at h
        obtain rfl : b :: rest2 = l2 := Option.some.inj h
        obtain ⟨pre, c, suf, heq, heq2, hc, hsuf⟩ := ih rest2 hrec
        exact ⟨b :: pre, c, suf, by rw [heq, List.cons_append],
          by rw [heq2, List.cons_append], hc, hsuf⟩

lemma goLasers_spec (hit : LaserObj → LanderObj → Prop) (cam : Vec3)
    (landers : List LanderObj) (g : ScoreState) :
    ∀ (rev processed : List LaserObj),
      ((goLasers hit cam landers g rev processed).2.2.2 = false →
        (goLasers hit cam landers g rev processed).1
            = keptMoved cam rev.reverse ++ processed ∧
        (goLasers hit cam landers g rev processed).2.1 = landers ∧
        (goLasers hit cam landers g rev processed).2.2.1 = g) ∧
      ((goLasers hit cam landers g rev processed).2.2.2 = true →
        (goLasers hit cam landers g rev processed).2.2.1 = updateLandersDestroyed g ∧
        (∃ pre b suf, landers = pre ++ b :: suf ∧
          (goLasers hit cam landers g rev processed).2.1 = pre ++ suf) ∧
        (∃ rev1 la rev2, rev = rev1 ++ la :: rev2 ∧
          (goLasers hit cam landers g rev processed).1
              = rev2.reverse ++ keptMoved cam rev1.reverse ++ processed)) := by
  intro rev
  induction rev with
  | nil =>
      intro processed
      constructor
      · intro _
        exact ⟨by simp [goLasers, keptMoved], rfl, rfl⟩
      · intro h
        simp [goLasers] at h
  | cons laser rev ih =>
      intro processed
      rcases hrem : removeHitFromEnd (hit (moveLaser laser)) landers with _ | landers2
      · by_cases hd : dist3 (moveLaser laser).position cam > 500
        · constructor
          · intro h
            simp only [goLasers, hrem, if_pos hd] at h ⊢
            obtain ⟨e1, e2, e3⟩ := (ih processed).1 h
            refine ⟨?_, e2, e3⟩
            rw [e1]
            simp [keptMoved, List.filterMap_append, hd]
          · intro h
            simp only [goLasers, hrem, if_pos hd] at h ⊢
            obtain ⟨e1, hshape, rev1, la, rev2, hr1, hr2⟩ := (ih processed).2 h
            refine ⟨e1, hshape, laser :: rev1, la, rev2, by rw [hr1, List.cons_append], ?_⟩
            rw [hr2]
            simp [keptMoved, List.filterMap_append, hd]
        · constructor
          · intro h
            simp only [goLasers, hrem, if_neg hd] at h ⊢
            obtain ⟨e1, e2, e3⟩ := (ih (moveLaser laser :: processed)).1 h
            refine ⟨?_, e2, e3⟩
            rw [e1]
            simp [keptMoved, List.filterMap_append, hd]
          · intro h
            simp only [goLasers, hrem, if_neg hd] at h ⊢
            obtain ⟨e1, hshape, rev1, la, rev2, hr1, hr2⟩ :=
              (ih (moveLaser laser :: processed)).2 h
            refine ⟨e1, hshape, laser :: rev1, la, rev2, by rw [hr1, List.cons_append], ?_⟩
            rw [hr2]
            simp [keptMoved, List.filterMap_append, hd]
      · have hg : goLasers hit cam landers g (laser :: rev) processed
            = (rev.reverse ++ processed, landers2, updateLandersDestroyed g, true) := by
          simp only [goLasers, hrem]
        constructor
        · intro h
          rw [hg] at h
          simp at h
        · intro _
          obtain ⟨pre, b, suf, h1, h2, _, _⟩ :=
            removeHitFromEnd_some _ landers landers2 hrem
          rw [hg]
          exact ⟨rfl, ⟨pre, b, suf, h1, h2⟩, [], laser, rev, rfl, by simp [keptMoved]⟩

lemma goLanders_spec (hitA : LanderObj → Vec3 → Prop) (cam : Vec3) (gz : ℝ)
    (asts : List Vec3) :
    ∀ (rev processed : List LanderObj),
      ((goLanders hitA cam gz asts rev processed).2.2.2 = false →
        (goLanders hitA cam gz asts rev processed).1
            = keptLanders cam gz asts rev.reverse ++ processed ∧
        (goLanders hitA cam gz asts rev processed).2.1 = asts) ∧
      ((goLanders hitA cam gz asts rev processed).2.2.2 = true →
        (∃ pre b suf, asts = pre ++ b :: suf ∧
          (goLanders hitA cam gz asts rev processed).2.1 = pre ++ suf) ∧
        (∃ rev1 la rev2, rev = rev1 ++ la :: rev2 ∧
          (goLanders hitA cam gz asts rev processed).1
              = rev2.reverse ++ keptLanders cam gz asts rev1.reverse ++ processed)) := by
  intro rev
  induction rev with
  | nil =>
      intro processed
      constructor
      · intro _
        exact ⟨by simp [goLanders, keptLanders], rfl⟩
      · intro h
        simp [goLanders] at h
  | cons lander rev ih =>
      intro processed
      by_cases hp : dist3 (landerUpdate lander gz asts).position cam < 3
      · have hg : goLanders hitA cam gz asts (lander :: rev) processed
            = ((goLanders hitA cam gz asts rev processed).1,
               (goLanders hitA cam gz asts rev processed).2.1,
               (goLanders hitA cam gz asts rev processed).2.2.1 + 1,
               (goLanders hitA cam gz asts rev processed).2.2.2) := by
          simp only [goLanders, if_pos hp]
        constructor
        · intro h
          rw [hg] at h ⊢
          obtain ⟨e1, e2⟩ := (ih processed).1 h
          refine ⟨?_, e2⟩
          rw [e1]
          simp [keptLanders, List.filterMap_append, hp]
        · intro h
          rw [hg] at h ⊢
          obtain ⟨hshape, rev1, la, rev2, hr1, hr2⟩ := (ih processed).2 h
          refine ⟨hshape, lander :: rev1, la, rev2, by rw [hr1, List.cons_append], ?_⟩
          rw [hr2]
          simp [keptLanders, List.filterMap_append, hp]
      · rcases hrem : removeHitFromEnd (hitA (landerUpdate lander gz asts)) asts with _ | asts2
        · by_cases hz : (landerUpdate lander gz asts).position.z < -500
          · constructor
            · intro h
              simp only [goLanders, if_neg hp, hrem, if_pos hz] at h ⊢
              obtain ⟨e1, e2⟩ := (ih processed).1 h
              refine ⟨?_, e2⟩
              rw [e1]
              simp [keptLanders, List.filterMap_append, hp, hz]
            · intro h
              simp only [goLanders, if_neg hp, hrem, if_pos hz] at h ⊢
              obtain ⟨hshape, rev1, la, rev2, hr1, hr2⟩ := (ih processed).2 h
              refine ⟨hshape, lander :: rev1, la, rev2, by rw [hr1, List.cons_append], ?_⟩
              rw [hr2]
              simp [keptLanders, List.filterMap_append, hp, hz]
          · constructor
            · intro h
              simp only [goLanders, if_neg hp, hrem, if_neg hz] at h ⊢
              obtain ⟨e1, e2⟩ := (ih (landerUpdate lander gz asts :: processed)).1 h
              refine ⟨?_, e2⟩
              rw [e1]
              simp [keptLanders, List.filterMap_append, hp, hz]
            · intro h
              simp only [goLanders, if_neg hp, hrem, if_neg hz] at h ⊢
              obtain ⟨hshape, rev1, la, rev2, hr1, hr2⟩ :=
                (ih (landerUpdate lander gz asts :: processed)).2 h
              refine ⟨hshape, lander :: rev1, la, rev2, by rw [hr1, List.cons_append], ?_⟩
              rw [hr2]
              simp [keptLanders, List.filterMap_append, hp, hz]
        · have hg : goLanders hitA cam gz asts (lander :: rev) processed
              = (rev.reverse ++ processed, asts2, 0, true) := by
            simp only [goLanders, if_neg hp, hrem]
          constructor
          · intro h
            rw [hg] at h
            simp at h
          · intro _
            obtain ⟨pre, b, suf, h1, h2, _, _⟩ := removeHitFromEnd_some _ asts asts2 hrem
            rw [hg]
            exact ⟨⟨pre, b, suf, h1, h2⟩, [], lander, rev, rfl, by simp [keptLanders]⟩

/-! ## Claim theorems: collision scans -/

/-- C8: in the first-class updateLasers, at most one projectile-lander pair
is resolved per invocation - on a hit exactly one lander and the hitting
laser are removed, the function returns at once, and the lasers below
the hit index are returned untouched; with no hit the landers are
unchanged.  In the first-class updateLanders, at most one
lander-astronaut pair is resolved per invocation: on a hit exactly one
astronaut and the paired lander are removed, the scan exits at once
leaving the not-yet-scanned landers untouched (only already-scanned
landers were updated, player-collision-removed or bounds-removed); with
no hit the astronauts are unchanged. -/
theorem C8_single_resolution :
    (∀ (hit : LaserObj → LanderObj → Prop) (cam : Vec3) (lasers : List LaserObj)
        (landers : List LanderObj) (g : ScoreState),
      ((updateLasers hit cam lasers landers g).2.2.2 = false →
        (updateLasers hit cam lasers landers g).2.1 = landers) ∧
      ((updateLasers hit cam lasers landers g).2.2.2 = true →
        (∃ pre b suf, landers = pre ++ b :: suf ∧
          (updateLasers hit cam lasers landers g).2.1 = pre ++ suf) ∧
        (∃ pre2 la suf2, lasers = pre2 ++ la :: suf2 ∧
          (updateLasers hit cam lasers landers g).1 = pre2 ++ keptMoved cam suf2))) ∧
    (∀ (hitA : LanderObj → Vec3 → Prop) (cam : Vec3) (gz : ℝ)
        (landers : List LanderObj) (asts : List Vec3),
      ((updateLanders hitA cam gz landers asts).2.2.2 = false →
        (updateLanders hitA cam gz landers asts).2.1 = asts) ∧
      ((updateLanders hitA cam gz landers asts).2.2.2 = true →
        (∃ pre b suf, asts = pre ++ b :: suf ∧
          (updateLanders hitA cam gz landers asts).2.1 = pre ++ suf) ∧
        (∃ pre2 la suf2, landers = pre2 ++ la :: suf2 ∧
          (updateLanders hitA cam gz landers asts).1
              = pre2 ++ keptLanders cam gz asts suf2))) := by
  constructor
  · intro hit cam lasers landers g
    constructor
    · intro h
      exact ((goLasers_spec hit cam landers g lasers.reverse []).1 h).2.1
    · intro h
      obtain ⟨_, hshape, rev1, la, rev2, hr1, hr2⟩ :=
        (goLasers_spec hit cam landers g lasers.reverse []).2 h
      refine ⟨hshape, rev2.reverse, la, rev1.reverse, ?_, ?_⟩
      · have := congrArg List.reverse hr1
        simpa [List.reverse_append] using this
      · rw [show (updateLasers hit cam lasers landers g).1
            = (goLasers hit cam landers g lasers.reverse []).1 from rfl, hr2]
        simp
  · intro hitA cam gz landers asts
    constructor
    · intro h
      exact ((goLanders_spec hitA cam gz asts landers.reverse []).1 h).2
    · intro h
      obtain ⟨hshape, rev1, la, rev2, hr1, hr2⟩ :=
        (goLanders_spec hitA cam gz asts landers.reverse []).2 h
      refine ⟨hshape, rev2.reverse, la, rev1.reverse, ?_, ?_⟩
      · have := congrArg List.reverse hr1
        simpa [List.reverse_append] using this
      · rw [show (updateLanders hitA cam gz landers asts).1
            = (goLanders hitA cam gz asts landers.reverse []).1 from rfl, hr2]
        simp

theorem C8_witness :
    ((∃ pre b suf, [(⟨⟨0, 0, 0⟩, 0, 0⟩ : LanderObj)] = pre ++ b :: suf ∧
        (updateLasers (fun _ _ => True) ⟨0, 0, 0⟩ [⟨⟨0, 0, 0⟩, ⟨0, 0, 0⟩⟩]
          [⟨⟨0, 0, 0⟩, 0, 0⟩] ⟨0, 0, 0⟩).2.1 = pre ++ suf) ∧
      (∃ pre2 la suf2, [(⟨⟨0, 0, 0⟩, ⟨0, 0, 0⟩⟩ : LaserObj)] = pre2 ++ la :: suf2 ∧
        (updateLasers (fun _ _ => True) ⟨0, 0, 0⟩ [⟨⟨0, 0, 0⟩, ⟨0, 0, 0⟩⟩]
          [⟨⟨0, 0, 0⟩, 0, 0⟩] ⟨0, 0, 0⟩).1 = pre2 ++ keptMoved ⟨0, 0, 0⟩ suf2)) ∧
    ((∃ pre b suf, [(⟨5, 0, 0⟩ : Vec3)] = pre ++ b :: suf ∧
        (updateLanders (fun _ _ => True) ⟨1000, 0, 0⟩ 0 [⟨⟨0, 0, 0⟩, 0, 0⟩]
          [⟨5, 0, 0⟩]).2.1 = pre ++ suf) ∧
      (∃ pre2 la suf2, [(⟨⟨0, 0, 0⟩, 0, 0⟩ : LanderObj)] = pre2 ++ la :: suf2 ∧
        (updateLanders (fun _ _ => True) ⟨1000, 0, 0⟩ 0 [⟨⟨0, 0, 0⟩, 0, 0⟩]
          [⟨5, 0, 0⟩]).1 = pre2 ++ keptLanders ⟨1000, 0, 0⟩ 0 [⟨5, 0, 0⟩] suf2)) := by
  have hremL : removeHitFromEnd
      ((fun (_ : LaserObj) (_ : LanderObj) => True)
        (moveLaser ⟨⟨0, 0, 0⟩, ⟨0, 0, 0⟩⟩)) [(⟨⟨0, 0, 0⟩, 0, 0⟩ : LanderObj)]
      = some [] := by
    simp only [removeHitFromEnd]
    exact if_pos trivial
  have hflagL : (updateLasers (fun _ _ => True) ⟨0, 0, 0⟩ [⟨⟨0, 0, 0⟩, ⟨0, 0, 0⟩⟩]
      [⟨⟨0, 0, 0⟩, 0, 0⟩] ⟨0, 0, 0⟩).2.2.2 = true := by
    show (goLasers (fun _ _ => True) ⟨0, 0, 0⟩ [⟨⟨0, 0, 0⟩, 0, 0⟩] ⟨0, 0, 0⟩
      ([⟨⟨0, 0, 0⟩, ⟨0, 0, 0⟩⟩].reverse) []).2.2.2 = true
    rw [show ([(⟨⟨0, 0, 0⟩, ⟨0, 0, 0⟩⟩ : LaserObj)]).reverse
        = [⟨⟨0, 0, 0⟩, ⟨0, 0, 0⟩⟩] from rfl]
    simp only [goLasers, hremL]
  have hpos : (landerUpdate ⟨⟨0, 0, 0⟩, 0, 0⟩ 0 [⟨5, 0, 0⟩]).position
      = (⟨0, 0, 0⟩ : Vec3) := by
    have hn : nearestAstronaut 0 (0 + 0) [(⟨5, 0, 0⟩ : Vec3)]
        = some (⟨5, 0, 0⟩, planarDist 0 (0 + 0) ⟨5, 0, 0⟩) := rfl
    simp only [landerUpdate, hn]
    simp [Vec3.mk.injEq]
  have hpcheck : ¬ dist3 (landerUpdate ⟨⟨0, 0, 0⟩, 0, 0⟩ 0 [⟨5, 0, 0⟩]).position
      ⟨1000, 0, 0⟩ < 3 := by
    rw [hpos]
    unfold dist3
    dsimp only
    have h1 : ((1000 : ℝ) - 0) ^ 2 + (0 - 0) ^ 2 + (0 - 0) ^ 2 = 1000000 := by norm_num
    rw [h1]
    have h3 : (3 : ℝ) = Real.sqrt 9 := by
      rw [show (9 : ℝ) = 3 ^ 2 by norm_num, Real.sqrt_sq (by norm_num : (0 : ℝ) ≤ 3)]
    rw [not_lt, h3]
    exact Real.sqrt_le_sqrt (by norm_num)
  have hremA : removeHitFromEnd
      ((fun (_ : LanderObj) (_ : Vec3) => True)
        (landerUpdate ⟨⟨0, 0, 0⟩, 0, 0⟩ 0 [⟨5, 0, 0⟩])) [(⟨5, 0, 0⟩ : Vec3)]
      = some [] := by
    simp only [removeHitFromEnd]
    exact if_pos trivial
  have hflagA : (updateLanders (fun _ _ => True) ⟨1000, 0, 0⟩ 0 [⟨⟨0, 0, 0⟩, 0, 0⟩]
      [⟨5, 0, 0⟩]).2.2.2 = true := by
    show (goLanders (fun _ _ => True) ⟨1000, 0, 0⟩ 0 [⟨5, 0, 0⟩]
      ([(⟨⟨0, 0, 0⟩, 0, 0⟩ : LanderObj)].reverse) []).2.2.2 = true
    rw [show ([(⟨⟨0, 0, 0⟩, 0, 0⟩ : LanderObj)]).reverse
        = [⟨⟨0, 0, 0⟩, 0, 0⟩] from rfl]
    simp only [goLanders, if_neg hpcheck, hremA]
  exact ⟨(C8_single_resolution.1 (fun _ _ => True) ⟨0, 0, 0⟩ [⟨⟨0, 0, 0⟩, ⟨0, 0, 0⟩⟩]
      [⟨⟨0, 0, 0⟩, 0, 0⟩] ⟨0, 0, 0⟩).2 hflagL,
    (C8_single_resolution.2 (fun _ _ => True) ⟨1000, 0, 0⟩ 0 [⟨⟨0, 0, 0⟩, 0, 0⟩]
      [⟨5, 0, 0⟩]).2 hflagA⟩

/-- C2 (code bug): evaluated at the failing input - one laser and one
lander present - checkCollisions reads lander.position, which is
undefined for the Lander wrappers stored in this.landers, so
Vector3.Distance throws a TypeError (Except.error) before any score or
counter update: the updateScore(100) at line 1503 is unreachable, and
the thrown error is caught at the update() boundary, halting the loop.
A projectile-lander collision actually resolved by updateLasers behaves
exactly as the claim states: both entities are destroyed,
landersDestroyed rises by 1 and the score rises by exactly 50 via
updateLandersDestroyed. -/
theorem C2_checkCollisions_bug :
    checkCollisions [⟨0, 0, 0⟩] [⟨⟨0, 0, 0⟩⟩] ⟨0, 0, 0⟩ = Except.error () ∧
    (updateLasers (fun _ _ => True) ⟨0, 0, 0⟩ [⟨⟨0, 0, 0⟩, ⟨0, 0, 0⟩⟩]
        [⟨⟨0, 0, 0⟩, 0, 0⟩] ⟨0, 0, 0⟩).2.2.1
      = (⟨50, 0, 1⟩ : ScoreState) ∧
    (updateLasers (fun _ _ => True) ⟨0, 0, 0⟩ [⟨⟨0, 0, 0⟩, ⟨0, 0, 0⟩⟩]
        [⟨⟨0, 0, 0⟩, 0, 0⟩] ⟨0, 0, 0⟩).2.1 = [] ∧
    (updateLasers (fun _ _ => True) ⟨0, 0, 0⟩ [⟨⟨0, 0, 0⟩, ⟨0, 0, 0⟩⟩]
        [⟨⟨0, 0, 0⟩, 0, 0⟩] ⟨0, 0, 0⟩).1 = [] := by
  have hscan : checkScanLanders ⟨0, 0, 0⟩ [⟨⟨0, 0, 0⟩⟩] = Except.error () := rfl
  have herr : checkCollisions [⟨0, 0, 0⟩] [⟨⟨0, 0, 0⟩⟩] ⟨0, 0, 0⟩ = Except.error () := by
    show goCheckRun ([(⟨0, 0, 0⟩ : Vec3)].reverse) [⟨⟨0, 0, 0⟩⟩] ⟨0, 0, 0⟩
      = Except.error ()
    rw [show ([(⟨0, 0, 0⟩ : Vec3)]).reverse = [⟨0, 0, 0⟩] from rfl]
    simp only [goCheckRun, hscan]
  have hrem : removeHitFromEnd
      ((fun (_ : LaserObj) (_ : LanderObj) => True)
        (moveLaser ⟨⟨0, 0, 0⟩, ⟨0, 0, 0⟩⟩)) [(⟨⟨0, 0, 0⟩, 0, 0⟩ : LanderObj)]
      = some [] := by
    simp only [removeHitFromEnd]
    exact if_pos trivial
  have hup : goLasers (fun _ _ => True) ⟨0, 0, 0⟩ [⟨⟨0, 0, 0⟩, 0, 0⟩] ⟨0, 0, 0⟩
      [⟨⟨0, 0, 0⟩, ⟨0, 0, 0⟩⟩] []
      = ([], [], updateLandersDestroyed ⟨0, 0, 0⟩, true) := by
    simp only [goLasers, hrem]
    rfl
  have hwrap : updateLasers (fun _ _ => True) ⟨0, 0, 0⟩ [⟨⟨0, 0, 0⟩, ⟨0, 0, 0⟩⟩]
      [⟨⟨0, 0, 0⟩, 0, 0⟩] ⟨0, 0, 0⟩
      = ([], [], updateLandersDestroyed ⟨0, 0, 0⟩, true) := by
    show goLasers (fun _ _ => True) ⟨0, 0, 0⟩ [⟨⟨0, 0, 0⟩, 0, 0⟩] ⟨0, 0, 0⟩
      ([⟨⟨0, 0, 0⟩, ⟨0, 0, 0⟩⟩].reverse) [] = _
    rw [show ([(⟨⟨0, 0, 0⟩, ⟨0, 0, 0⟩⟩ : LaserObj)]).reverse
        = [⟨⟨0, 0, 0⟩, ⟨0, 0, 0⟩⟩] from rfl]
    exact hup
  rw [hwrap]
  exact ⟨herr, rfl, rfl, rfl⟩

/-! ## Helper lemmas for the closest-lander scan -/

lemma closestGo_le_init (cam : Vec3) :
    ∀ (l : List Vec3) (c : ℝ), closestGo cam c l ≤ c := by
  intro l
  induction l with
  | nil =>
      intro c
      exact le_refl _
  | cons a rest ih =>
      intro c
      by_cases h : dist3 cam a < c
      · simp only [closestGo, if_pos h]
        exact le_of_lt (lt_of_le_of_lt (ih _) h)
      · simp only [closestGo, if_neg h]
        exact ih c

lemma closestGo_le_mem (cam : Vec3) :
    ∀ (l : List Vec3) (c : ℝ), ∀ x ∈ l, closestGo cam c l ≤ dist3 cam x := by
  intro l
  induction l with
  | nil =>
      intro c x hx
      simp at hx
  | cons a rest ih =>
      intro c x hx
      rcases List.mem_cons.mp hx with rfl | hx2
      · by_cases h : dist3 cam x < c
        · simp only [closestGo, if_pos h]
          exact closestGo_le_init cam rest _
        · simp only [closestGo, if_neg h]
          exact le_trans (closestGo_le_init cam rest c) (not_lt.mp h)
      · by_cases h : dist3 cam a < c
        · simp only [closestGo, if_pos h]
          exact ih _ x hx2
        · simp only [closestGo, if_neg h]
          exact ih c x hx2

lemma closestGo_attained (cam : Vec3) :
    ∀ (l : List Vec3) (c : ℝ), closestGo cam c l = c ∨ ∃ x ∈ l, closestGo cam c l = dist3 cam x := by
  intro l
  induction l with
  | nil =>
      intro c
      exact Or.inl rfl
  | cons a rest ih =>
      intro c
      by_cases h : dist3 cam a < c
      · simp only [closestGo, if_pos h]
        rcases ih (dist3 cam a) with h2 | ⟨x, hx, h2⟩
        · exact Or.inr ⟨a, by simp, h2⟩
        · exact Or.inr ⟨x, by simp [hx], h2⟩
      · simp only [closestGo, if_neg h]
        rcases ih c with h2 | ⟨x, hx, h2⟩
        · exact Or.inl h2
        · exact Or.inr ⟨x, by simp [hx], h2⟩

/-! ## Claim theorems: closest-lander telemetry -/

/-- C10: getClosestLanderDistance returns 0 for an empty landers collection
(not infinity and not an error), and for a non-empty collection returns
the minimum Euclidean distance from the camera to a lander: it is a
lower bound on all the distances and is attained by some lander. -/
theorem C10_closest_lander :
    (∀ cam : Vec3, getClosestLanderDistance cam [] = 0) ∧
    (∀ (cam : Vec3) (landers : List Vec3), landers ≠ [] →
      (∀ x ∈ landers, getClosestLanderDistance cam landers ≤ dist3 cam x) ∧
      ∃ x ∈ landers, getClosestLanderDistance cam landers = dist3 cam x) := by
  constructor
  · intro cam
    rfl
  · intro cam landers hne
    match landers with
    | [] => exact absurd rfl hne
    | a :: rest =>
        constructor
        · intro x hx
          rcases List.mem_cons.mp hx with rfl | hx2
          · exact closestGo_le_init cam rest _
          · exact closestGo_le_mem cam rest _ x hx2
        · rcases closestGo_attained cam rest (dist3 cam a) with h | ⟨x, hx, h⟩
          · exact ⟨a, by simp, h⟩
          · exact ⟨x, by simp [hx], h⟩

theorem C10_witness :
    getClosestLanderDistance ⟨0, 0, 0⟩ [] = 0 ∧
    (∀ x ∈ [(⟨3, 4, 0⟩ : Vec3)],
      getClosestLanderDistance ⟨0, 0, 0⟩ [⟨3, 4, 0⟩] ≤ dist3 ⟨0, 0, 0⟩ x) ∧
    ∃ x ∈ [(⟨3, 4, 0⟩ : Vec3)],
      getClosestLanderDistance ⟨0, 0, 0⟩ [⟨3, 4, 0⟩] = dist3 ⟨0, 0, 0⟩ x :=
  ⟨C10_closest_lander.1 ⟨0, 0, 0⟩,
   (C10_closest_lander.2 ⟨0, 0, 0⟩ [⟨3, 4, 0⟩] (by simp)).1,
   (C10_closest_lander.2 ⟨0, 0, 0⟩ [⟨3, 4, 0⟩] (by simp)).2⟩

end Defender2084
